import Mathlib

set_option maxHeartbeats 1000000

/-! Verification of the diffoci `diff` command orchestration layer,
embedded from cmd/diffoci/commands/diff/diff.go: the flag registry and
alias resolution (`NewCommand` / its `PreRunE`), and the `action`
function (option building, image acquisition, comparison invocation and
exit-code interpretation). -/

/-- A value held by a registered CLI flag (pflag). Only the value kinds
registered by `NewCommand` are modelled: bool, string, string slice and
float64. The float is kept in its textual form: no arithmetic is ever
performed on it in this layer. -/
inductive FlagVal
  | bool (b : Bool)
  | str (s : String)
  | strList (l : List String)
  | num (raw : String)
deriving DecidableEq

/-- The flag set of the command (pflag FlagSet), as an association list in
registration order. -/
abbrev FlagStore := List (String × FlagVal)

def lookupFlag : FlagStore → String → Option FlagVal
  | [], _ => none
  | (k, v) :: r, n => if k = n then some v else lookupFlag r n

def updateFlag : FlagStore → String → FlagVal → FlagStore
  | [], _, _ => []
  | (k, v) :: r, n, nv => if k = n then (k, nv) :: r else (k, v) :: updateFlag r n nv

/-- Go strconv.ParseBool, used by pflag when setting a bool flag. -/
def parseBool : String → Option Bool
  | "1" | "t" | "T" | "true" | "TRUE" | "True" => some true
  | "0" | "f" | "F" | "false" | "FALSE" | "False" => some false
  | _ => none

/-- pflag FlagSet.Set: fails when the flag is not registered or (for a
bool flag) the value does not parse. Only bool flags are ever `Set` by
this layer, always with the literal value "true". -/
def setFlag (fs : FlagStore) (name val : String) : Except String FlagStore :=
  match lookupFlag fs name with
  | none => .error ("no such flag -" ++ name)
  | some (.bool _) =>
    match parseBool val with
    | some b => .ok (updateFlag fs name (.bool b))
    | none => .error ("invalid argument " ++ val ++ " for flag " ++ name)
  | some (.str _) => .ok (updateFlag fs name (.str val))
  | some (.strList _) => .ok (updateFlag fs name (.strList (val.splitOn ",")))
  | some (.num _) => .ok (updateFlag fs name (.num val))

/-- pflag FlagSet.GetBool: returns the value and possibly an error; on
error the returned value is the zero value `false`. -/
def getBool (fs : FlagStore) (name : String) : Bool × Option String :=
  match lookupFlag fs name with
  | some (.bool b) => (b, none)
  | some _ => (false, some ("trying to get bool value of flag of type: " ++ name))
  | none => (false, some ("flag accessed but not defined: " ++ name))

/-- pflag FlagSet.GetString, with the zero value on error. -/
def getString (fs : FlagStore) (name : String) : String × Option String :=
  match lookupFlag fs name with
  | some (.str s) => (s, none)
  | some _ => ("", some ("trying to get string value of flag of type: " ++ name))
  | none => ("", some ("flag accessed but not defined: " ++ name))

/-- pflag FlagSet.GetStringSlice, with the zero value on error. -/
def getStringSlice (fs : FlagStore) (name : String) : List String × Option String :=
  match lookupFlag fs name with
  | some (.strList l) => (l, none)
  | some _ => ([], some ("trying to get stringSlice value of flag of type: " ++ name))
  | none => ([], some ("flag accessed but not defined: " ++ name))

/-- pflag FlagSet.GetFloat64, with the zero value on error (the value is
kept in textual form). -/
def getFloat (fs : FlagStore) (name : String) : String × Option String :=
  match lookupFlag fs name with
  | some (.num raw) => (raw, none)
  | some _ => ("0", some ("trying to get float64 value of flag of type: " ++ name))
  | none => ("0", some ("flag accessed but not defined: " ++ name))

/-- The ten flags forced by `--semantic` (diff.go:41-52). -/
def semanticFlagNames : List String :=
  ["ignore-history", "ignore-file-order", "ignore-file-mode-redundant-bits",
   "ignore-file-mtime", "ignore-file-atime", "ignore-file-ctime",
   "ignore-image-timestamps", "ignore-image-name", "ignore-tar-format",
   "treat-canonical-paths-equal"]

/-- The four flags forced by `--ignore-timestamps` (diff.go:60-65). -/
def timestampsFlagNames : List String :=
  ["ignore-file-mtime", "ignore-file-atime", "ignore-file-ctime",
   "ignore-image-timestamps"]

/-- The three flags forced by `--ignore-file-timestamps` (diff.go:73-77). -/
def fileTimestampsFlagNames : List String :=
  ["ignore-file-mtime", "ignore-file-atime", "ignore-file-ctime"]

structure AliasRule where
  flag : String
  targets : List String
deriving DecidableEq

/-- The three alias expansions of `PreRunE`, in source order
(diff.go:38-85). -/
def aliasRules : List AliasRule :=
  [⟨"semantic", semanticFlagNames⟩,
   ⟨"ignore-timestamps", timestampsFlagNames⟩,
   ⟨"ignore-file-timestamps", fileTimestampsFlagNames⟩]

def setAll (fs : FlagStore) (names : List String) : Except String FlagStore :=
  names.foldlM (fun acc f => setFlag acc f "true") fs

/-- One alias step of `PreRunE`: read the alias flag, discarding any read
error (so an unreadable alias counts as its zero value `false`), and when
true set each target flag to "true", aborting on the first Set error. -/
def applyRule (fs : FlagStore) (r : AliasRule) : Except String FlagStore :=
  if (getBool fs r.flag).1 then setAll fs r.targets else .ok fs

def resolveAliases (fs : FlagStore) (rules : List AliasRule) : Except String FlagStore :=
  rules.foldlM applyRule fs

/-- `PreRunE` of the diff command: the three alias expansions applied in
source order, on the shared mutable flag set. -/
def preRunE (fs : FlagStore) : Except String FlagStore :=
  resolveAliases fs aliasRules

/-- Error-free version of `setAll` (used to state what `PreRunE` computes
when the flag registry is well formed). -/
def setAllPure (fs : FlagStore) (names : List String) : FlagStore :=
  names.foldl (fun acc n => updateFlag acc n (.bool true)) fs

def applyRulePure (fs : FlagStore) (r : AliasRule) : FlagStore :=
  if (getBool fs r.flag).1 then setAllPure fs r.targets else fs

def resolvePure (fs : FlagStore) (rules : List AliasRule) : FlagStore :=
  rules.foldl applyRulePure fs

/-- The flag named `n` is registered in `fs` with a bool value. -/
def isBoolFlag (fs : FlagStore) (n : String) : Bool :=
  match lookupFlag fs n with
  | some (.bool _) => true
  | _ => false

/-- All ten alias target flags are registered as bool flags (true for any
flag set produced by `NewCommand`). -/
def targetsAreBool (fs : FlagStore) : Bool :=
  semanticFlagNames.all (isBoolFlag fs)

/-- Structural facts about one alias rule that hold for each of the three
rules of `aliasRules`: its targets are among the ten semantic targets and
its own flag is not a target of any rule. -/
def RuleOK (r : AliasRule) : Prop :=
  r.targets ⊆ semanticFlagNames ∧ r.flag ∉ semanticFlagNames

/-- The flags written by the alias resolution on a given raw flag set:
the targets of each alias whose raw value reads true. -/
def activeTargets (fs : FlagStore) : List String :=
  aliasRules.foldr (fun r acc => if (getBool fs r.flag).1 then r.targets ++ acc else acc) []

instance decidableRuleOKPred (r : AliasRule) : Decidable (RuleOK r) :=
  inferInstanceAs (Decidable (r.targets ⊆ semanticFlagNames ∧ r.flag ∉ semanticFlagNames))

/-! The `action` function (diff.go:120-271), modelled as a pure function
from the results of its external collaborators (backend, platform parser,
path expander, image getter, diff engine) to the ordered trace of calls
and log lines it produces and its outcome. -/

/-- A Go error value: its message, and whether `errors.Is` classifies it
as containerd errdefs.ErrUnavailable (wrapping via fmt.Errorf %w keeps
the classification). -/
structure GoError where
  message : String
  unavailable : Bool
deriving DecidableEq

/-- OCI content descriptor, reduced to the identity that this layer logs
and forwards. -/
structure Descriptor where
  digest : String
deriving DecidableEq

/-- imagegetter result: display name plus target descriptor. -/
structure ResolvedImage where
  name : String
  target : Descriptor
deriving DecidableEq

/-- One child of the comparison report; its internal shape is owned by
the external diff engine and opaque here. -/
inductive ReportNode
  | node
deriving DecidableEq

/-- The comparison report returned by diff.Diff: a root with zero or more
children; only the child count is inspected by this layer. -/
structure DiffReport where
  children : List ReportNode
deriving DecidableEq

/-- Observable steps of `action`, in execution order: the log lines this
layer emits and its calls to the image getter and the diff engine. -/
inductive Event
  | infoTargetPlatforms (plats : List String)
  | warnReportFileExperimental
  | callGet (i : Nat) (ref : String)
  | debugInput (i : Nat) (name : String) (digest : String)
  | callDiff (desc0 : Descriptor) (desc1 : Descriptor)
  | errorLog (msg : String)
  | debugExitingWith (code : Nat)
  | exitProcess (code : Nat)
deriving DecidableEq

def Event.isCallGet : Event → Bool
  | .callGet _ _ => true
  | _ => false

def Event.isCallDiff : Event → Bool
  | .callDiff _ _ => true
  | _ => false

def Event.isDebugInput : Event → Bool
  | .debugInput _ _ _ => true
  | _ => false

def Event.isErrorLog : Event → Bool
  | .errorLog _ => true
  | _ => false

/-- Acquisition-phase events: image getter calls and their per-image
debug log lines. -/
def Event.isAcq (e : Event) : Bool := e.isCallGet || e.isDebugInput

/-- How `action` ends: either it returns an error to cobra, or it reaches
os.Exit with a code. -/
inductive Outcome
  | returnedError (e : GoError)
  | exited (code : Nat)
deriving DecidableEq

/-- Results of the external collaborators of one `action` invocation. -/
structure Env where
  newBackend : Except GoError Unit
  parsePlatformFlags : Except GoError (List String)
  expand : String → String × Option GoError
  imageGetterNew : Except GoError Unit
  getImage : Nat → String → Except GoError ResolvedImage
  diffResult : Option DiffReport × Option GoError

/-- `flags.GetBool` followed by the `if err != nil return err` check. -/
def getBoolE (fs : FlagStore) (n : String) : Except GoError Bool :=
  match getBool fs n with
  | (b, none) => .ok b
  | (_, some m) => .error ⟨m, false⟩

def getStringE (fs : FlagStore) (n : String) : Except GoError String :=
  match getString fs n with
  | (s, none) => .ok s
  | (_, some m) => .error ⟨m, false⟩

def getStringSliceE (fs : FlagStore) (n : String) : Except GoError (List String) :=
  match getStringSlice fs n with
  | (l, none) => .ok l
  | (_, some m) => .error ⟨m, false⟩

def getFloatE (fs : FlagStore) (n : String) : Except GoError String :=
  match getFloat fs n with
  | (s, none) => .ok s
  | (_, some m) => .error ⟨m, false⟩

/-- The fields of pkg/diff Options assembled by `action` (diff.go:134-229).
The event handler is the two-way default/verbose selector; max-scale is
carried in textual form. -/
structure DiffOptions where
  ignoreHistory : Bool
  ignoreFileOrder : Bool
  ignoreFileModeRedundantBits : Bool
  ignoreFileMTime : Bool
  ignoreFileATime : Bool
  ignoreFileCTime : Bool
  ignoreFilePermissions : Bool
  ignoreFileMode : Bool
  ignoreFileContent : Bool
  ignoreLayerLengthMismatch : Bool
  ignoreFiles : List String
  ignoreImageTimestamps : Bool
  ignoreImageName : Bool
  ignoreTarFormat : Bool
  canonicalPaths : Bool
  reportFile : String
  reportDir : String
  verboseHandler : Bool
  maxScale : String
deriving DecidableEq

/-- The straight-line flag reads of diff.go:135-194, each aborting on a
read error; the remaining fields keep their zero values at this point. -/
def readCoreOptions (fs : FlagStore) : Except GoError DiffOptions := do
  let ignoreHistory ← getBoolE fs "ignore-history"
  let ignoreFileOrder ← getBoolE fs "ignore-file-order"
  let ignoreFileModeRedundantBits ← getBoolE fs "ignore-file-mode-redundant-bits"
  let ignoreFileMTime ← getBoolE fs "ignore-file-mtime"
  let ignoreFileATime ← getBoolE fs "ignore-file-atime"
  let ignoreFileCTime ← getBoolE fs "ignore-file-ctime"
  let ignoreFilePermissions ← getBoolE fs "extra-ignore-file-permissions"
  let ignoreFileMode ← getBoolE fs "extra-ignore-file-mode"
  let ignoreFileContent ← getBoolE fs "extra-ignore-file-content"
  let ignoreLayerLengthMismatch ← getBoolE fs "extra-ignore-layer-length-mismatch"
  let ignoreFiles ← getStringSliceE fs "extra-ignore-files"
  let ignoreImageTimestamps ← getBoolE fs "ignore-image-timestamps"
  let ignoreImageName ← getBoolE fs "ignore-image-name"
  let ignoreTarFormat ← getBoolE fs "ignore-tar-format"
  let canonicalPaths ← getBoolE fs "treat-canonical-paths-equal"
  pure ⟨ignoreHistory, ignoreFileOrder, ignoreFileModeRedundantBits, ignoreFileMTime,
    ignoreFileATime, ignoreFileCTime, ignoreFilePermissions, ignoreFileMode,
    ignoreFileContent, ignoreLayerLengthMismatch, ignoreFiles, ignoreImageTimestamps,
    ignoreImageName, ignoreTarFormat, canonicalPaths, "", "", false, "1.0"⟩

/-- Go fmt %q, modulo escaping (none of the modelled strings need it). -/
def quoteGo (s : String) : String := "\"" ++ s ++ "\""

/-- The fixed hint appended to an unavailable comparison error
(diff.go:260). -/
def diffHint : String :=
  " (Hint: specify `--platform` explicitly, e.g., `--platform=linux/amd64`)"

/-- The shared pattern of diff.go:201-204 and 211-214: the report path
variable is overwritten with the first return value of Expand, and on
error the message formats that overwritten value with %q. -/
def expandReportPath (env : Env) (flagName : String) (path : String) :
    Except GoError String :=
  match env.expand path with
  | (expanded, some e) =>
    .error ⟨"invalid " ++ flagName ++ " path " ++ quoteGo expanded ++ ": " ++ e.message,
      e.unavailable⟩
  | (expanded, none) => .ok expanded

/-- diff.go:253-268: exit code from the comparison result, the error log
line (with the hint for unavailable errors) and the non-zero-exit debug
line. Returns the exit code and the log events in order. -/
def interpretResult (report : Option DiffReport) (err : Option GoError) :
    Nat × List Event :=
  let exitCode : Nat :=
    match report with
    | some rep => if 0 < rep.children.length then 1 else 0
    | none => 0
  let step2 : Nat × List Event :=
    match err with
    | some e =>
      let e2 : GoError := if e.unavailable then ⟨e.message ++ diffHint, e.unavailable⟩ else e
      (2, [Event.errorLog e2.message])
    | none => (exitCode, [])
  (step2.1, step2.2 ++ (if step2.1 ≠ 0 then [Event.debugExitingWith step2.1] else []))

/-- diff.go:241-270: the acquisition loop (two sequential Get calls with
their debug lines, aborting on the first error), the diff invocation and
the final interpretation ending in os.Exit. -/
def acquireAndCompare (env : Env) (arg0 arg1 : String) (ev : List Event)
    ( _options : DiffOptions) : List Event × Outcome :=
  let ev := ev ++ [Event.callGet 0 arg0]
  match env.getImage 0 arg0 with
  | .error e => (ev, .returnedError e)
  | .ok img0 =>
  let ev := ev ++ [Event.debugInput 0 img0.name img0.target.digest]
  let ev := ev ++ [Event.callGet 1 arg1]
  match env.getImage 1 arg1 with
  | .error e => (ev, .returnedError e)
  | .ok img1 =>
  let ev := ev ++ [Event.debugInput 1 img1.name img1.target.digest]
  let ev := ev ++ [Event.callDiff img0.target img1.target]
  let res := interpretResult env.diffResult.1 env.diffResult.2
  (ev ++ res.2 ++ [Event.exitProcess res.1], .exited res.1)

/-- diff.go:217-239: the verbose, max-scale and pull reads, the
imagegetter construction, then the acquisition/comparison tail. -/
def actionTail (env : Env) (fs : FlagStore) (arg0 arg1 : String) (ev : List Event)
    (options : DiffOptions) : List Event × Outcome :=
  match getBoolE fs "verbose" with
  | .error e => (ev, .returnedError e)
  | .ok verbose =>
  let options := { options with verboseHandler := verbose }
  match getFloatE fs "max-scale" with
  | .error e => (ev, .returnedError e)
  | .ok maxScale =>
  let options := { options with maxScale := maxScale }
  match getStringE fs "pull" with
  | .error e => (ev, .returnedError e)
  | .ok _pullMode =>
  match env.imageGetterNew with
  | .error e => (ev, .returnedError e)
  | .ok _ => acquireAndCompare env arg0 arg1 ev options

/-- diff.go:206-215: the report-dir read and expansion. -/
def actionReportDir (env : Env) (fs : FlagStore) (arg0 arg1 : String) (ev : List Event)
    (options : DiffOptions) : List Event × Outcome :=
  match getStringE fs "report-dir" with
  | .error e => (ev, .returnedError e)
  | .ok rd0 =>
  if rd0 = "" then actionTail env fs arg0 arg1 ev { options with reportDir := rd0 }
  else
    match expandReportPath env "report-dir" rd0 with
    | .error e => (ev, .returnedError e)
    | .ok rd1 => actionTail env fs arg0 arg1 ev { options with reportDir := rd1 }

/-- diff.go:120-205: backend and platform phases, the straight-line option
reads, then the report-file warning and expansion. -/
def action (env : Env) (fs : FlagStore) (arg0 arg1 : String) : List Event × Outcome :=
  match env.newBackend with
  | .error e => ([], .returnedError e)
  | .ok _ =>
  match env.parsePlatformFlags with
  | .error e => ([], .returnedError e)
  | .ok plats =>
  let ev := [Event.infoTargetPlatforms plats]
  match readCoreOptions fs with
  | .error e => (ev, .returnedError e)
  | .ok core =>
  match getStringE fs "report-file" with
  | .error e => (ev, .returnedError e)
  | .ok rf0 =>
  if rf0 = "" then actionReportDir env fs arg0 arg1 ev { core with reportFile := rf0 }
  else
    let ev := ev ++ [Event.warnReportFileExperimental]
    match expandReportPath env "report-file" rf0 with
    | .error e => (ev, .returnedError e)
    | .ok rf1 => actionReportDir env fs arg0 arg1 ev { core with reportFile := rf1 }

/-- The spec's three-way terminal classification of one invocation. -/
inductive ExecutionOutcome
  | clean
  | differencesFound
  | failed
deriving DecidableEq

/-- Stated from the spec (section 4.5): a non-nil error means Failed; else
a non-nil report with at least one child means DifferencesFound; else
Clean. -/
def classifyOutcome (report : Option DiffReport) (err : Option GoError) :
    ExecutionOutcome :=
  if err.isSome then .failed
  else if (match report with
    | some rep => decide (0 < rep.children.length)
    | none => false) then .differencesFound
  else .clean

/-- Stated from the spec (sections 4.5 and 6): exit status of each
terminal state. -/
def ExecutionOutcome.exitStatus : ExecutionOutcome → Nat
  | .clean => 0
  | .differencesFound => 1
  | .failed => 2

/-- The registered flags of `NewCommand` (diff.go:93-116) with the raw
values supplied on the command line; `RawFlags.store` lays them out in
registration order. -/
structure RawFlags where
  ignoreTimestamps : Bool
  ignoreHistory : Bool
  ignoreFileOrder : Bool
  ignoreFileModeRedundantBits : Bool
  ignoreFileTimestamps : Bool
  ignoreFileMTime : Bool
  ignoreFileATime : Bool
  ignoreFileCTime : Bool
  extraIgnoreFilePermissions : Bool
  extraIgnoreFileMode : Bool
  extraIgnoreFileContent : Bool
  extraIgnoreLayerLengthMismatch : Bool
  extraIgnoreFiles : List String
  ignoreImageTimestamps : Bool
  ignoreImageName : Bool
  ignoreTarFormat : Bool
  treatCanonicalPathsEqual : Bool
  semantic : Bool
  verbose : Bool
  reportFile : String
  reportDir : String
  pull : String
  maxScale : String
deriving DecidableEq

def RawFlags.store (r : RawFlags) : FlagStore :=
  [("ignore-timestamps", .bool r.ignoreTimestamps),
   ("ignore-history", .bool r.ignoreHistory),
   ("ignore-file-order", .bool r.ignoreFileOrder),
   ("ignore-file-mode-redundant-bits", .bool r.ignoreFileModeRedundantBits),
   ("ignore-file-timestamps", .bool r.ignoreFileTimestamps),
   ("ignore-file-mtime", .bool r.ignoreFileMTime),
   ("ignore-file-atime", .bool r.ignoreFileATime),
   ("ignore-file-ctime", .bool r.ignoreFileCTime),
   ("extra-ignore-file-permissions", .bool r.extraIgnoreFilePermissions),
   ("extra-ignore-file-mode", .bool r.extraIgnoreFileMode),
   ("extra-ignore-file-content", .bool r.extraIgnoreFileContent),
   ("extra-ignore-layer-length-mismatch", .bool r.extraIgnoreLayerLengthMismatch),
   ("extra-ignore-files", .strList r.extraIgnoreFiles),
   ("ignore-image-timestamps", .bool r.ignoreImageTimestamps),
   ("ignore-image-name", .bool r.ignoreImageName),
   ("ignore-tar-format", .bool r.ignoreTarFormat),
   ("treat-canonical-paths-equal", .bool r.treatCanonicalPathsEqual),
   ("semantic", .bool r.semantic),
   ("verbose", .bool r.verbose),
   ("report-file", .str r.reportFile),
   ("report-dir", .str r.reportDir),
   ("pull", .str r.pull),
   ("max-scale", .num r.maxScale)]

/-- All flags at their registered defaults (diff.go:93-116). -/
def defaultRawFlags : RawFlags :=
  ⟨false, false, false, false, false, false, false, false, false, false, false, false,
   [], false, false, false, false, false, false, "", "", "missing", "1.0"⟩

/-- Modelled from the spec: localpathutil.Expand (pkg/localpathutil is part
of this repository but not under src/). Per the spec it performs
home-directory/user-path expansion of report paths and can fail. The home
directory is a parameter (`none` models an os.UserHomeDir failure), and,
following the Go convention for a (string, error) pair, every failure
returns the zero value "" alongside the error. -/
def strHasPrefix (s pre : String) : Bool := pre.data.isPrefixOf s.data

def expandModel (home : Option String) (cwd : String) (s : String) :
    String × Option GoError :=
  if s = "" then ("", some ⟨"empty path", false⟩)
  else if strHasPrefix s "~" then
    match home with
    | none => ("", some ⟨"$HOME is not defined", false⟩)
    | some h =>
      if s = "~" then (h, none)
      else if strHasPrefix s "~/" then (h ++ "/" ++ String.mk (s.data.drop 2), none)
      else ("", some ⟨"cannot expand user-specific home dir", false⟩)
  else if strHasPrefix s "/" then (s, none)
  else (cwd ++ "/" ++ s, none)

/-- An expander that always succeeds, for witnesses. -/
def expandId : String → String × Option GoError := fun s => (s, none)

/-- A fully successful environment around a given diff outcome, for
witnesses. -/
def envWith (expand : String → String × Option GoError)
    (diffResult : Option DiffReport × Option GoError) : Env :=
  ⟨.ok (), .ok ["linux/amd64"], expand, .ok (),
   fun i ref => .ok ⟨ref, ⟨"sha256:" ++ toString i⟩⟩, diffResult⟩

/-- The concrete environment of the report-path counterexample: the home
directory is unavailable, everything else succeeds cleanly. -/
def env0 : Env := envWith (expandModel none "/cwd") (none, none)

/-- Raw flags that only supply a report-file under the home directory. -/
def rawTildeReportFile : RawFlags := { defaultRawFlags with reportFile := "~/out.json" }

/-- Substring test, used to state that a message does or does not mention
a path. -/
def strContains (s pat : String) : Bool :=
  (List.range (s.data.length + 1)).any (fun i => pat.data.isPrefixOf (s.data.drop i))

/-- Fixture: only `--semantic` supplied. -/
def semanticOnStore : FlagStore :=
  RawFlags.store { defaultRawFlags with semantic := true }

/-- Fixture: only `--ignore-timestamps` supplied. -/
def timestampsOnStore : FlagStore :=
  RawFlags.store { defaultRawFlags with ignoreTimestamps := true }

/-- Fixture: only `--ignore-file-timestamps` supplied. -/
def fileTimestampsOnStore : FlagStore :=
  RawFlags.store { defaultRawFlags with ignoreFileTimestamps := true }

/-! Basic facts about lookup and update on the flag store. -/

theorem lookup_update_self (fs : FlagStore) (n : String) (v : FlagVal)
    (h : (lookupFlag fs n).isSome) : lookupFlag (updateFlag fs n v) n = some v := by
  induction fs with
  | nil => simp [lookupFlag] at h
  | cons hd tl ih =>
    obtain ⟨k, w⟩ := hd
    by_cases hk : k = n
    · subst hk
      simp [lookupFlag, updateFlag]
    · simp only [lookupFlag, updateFlag, if_neg hk] at h ⊢
      exact ih h

theorem lookup_update_ne (fs : FlagStore) (n : String) (v : FlagVal) (m : String)
    (h : m ≠ n) : lookupFlag (updateFlag fs n v) m = lookupFlag fs m := by
  induction fs with
  | nil => simp [lookupFlag, updateFlag]
  | cons hd tl ih =>
    obtain ⟨k, w⟩ := hd
    by_cases hk : k = n
    · subst hk
      have hkm : ¬ k = m := fun hh => h (hh ▸ rfl)
      simp [lookupFlag, updateFlag, hkm]
    · by_cases hm : k = m
      · subst hm
        simp [lookupFlag, updateFlag, hk]
      · simp only [lookupFlag, updateFlag, if_neg hk, if_neg hm]
        exact ih

theorem lookup_update_isSome (fs : FlagStore) (n : String) (v : FlagVal) (m : String) :
    (lookupFlag (updateFlag fs n v) m).isSome = (lookupFlag fs m).isSome := by
  by_cases hm : m = n
  · subst hm
    cases h : lookupFlag fs m with
    | none =>
      induction fs with
      | nil => simp [lookupFlag, updateFlag]
      | cons hd tl ih =>
        obtain ⟨k, w⟩ := hd
        by_cases hk : k = m
        · simp [lookupFlag, hk] at h
        · simp only [lookupFlag, updateFlag, if_neg hk] at h ⊢
          exact ih h
    | some w =>
      rw [lookup_update_self fs m v (by simp [h])]
      simp [h]
  · rw [lookup_update_ne fs n v m hm]

theorem isBoolFlag_update (fs : FlagStore) (m n : String)
    (h : isBoolFlag fs n = true) :
    isBoolFlag (updateFlag fs m (.bool true)) n = true := by
  by_cases hm : n = m
  · subst hm
    have hs : (lookupFlag fs n).isSome := by
      unfold isBoolFlag at h
      cases hl : lookupFlag fs n with
      | none => rw [hl] at h; simp at h
      | some w => simp
    unfold isBoolFlag
    rw [lookup_update_self fs n (.bool true) hs]
  · unfold isBoolFlag
    rw [lookup_update_ne fs m (.bool true) n hm]
    exact h

theorem lookup_setAllPure_not_mem (l : List String) (fs : FlagStore) (n : String)
    (h : n ∉ l) : lookupFlag (setAllPure fs l) n = lookupFlag fs n := by
  induction l generalizing fs with
  | nil => rfl
  | cons a t ih =>
    have ha : n ≠ a := fun hh => h (hh ▸ List.mem_cons_self a t)
    have ht : n ∉ t := fun hh => h (List.mem_cons_of_mem a hh)
    simp only [setAllPure, List.foldl_cons]
    rw [show (List.foldl (fun acc nn => updateFlag acc nn (.bool true))
        (updateFlag fs a (.bool true)) t) = setAllPure (updateFlag fs a (.bool true)) t from rfl]
    rw [ih (updateFlag fs a (.bool true)) ht, lookup_update_ne fs a (.bool true) n ha]

theorem lookup_setAllPure_isSome (l : List String) (fs : FlagStore) (n : String) :
    (lookupFlag (setAllPure fs l) n).isSome = (lookupFlag fs n).isSome := by
  induction l generalizing fs with
  | nil => rfl
  | cons a t ih =>
    simp only [setAllPure, List.foldl_cons]
    rw [show (List.foldl (fun acc nn => updateFlag acc nn (.bool true))
        (updateFlag fs a (.bool true)) t) = setAllPure (updateFlag fs a (.bool true)) t from rfl]
    rw [ih (updateFlag fs a (.bool true)), lookup_update_isSome]

theorem lookup_setAllPure_mem (l : List String) (fs : FlagStore) (n : String)
    (h : n ∈ l) (hs : (lookupFlag fs n).isSome) :
    lookupFlag (setAllPure fs l) n = some (.bool true) := by
  induction l generalizing fs with
  | nil => cases h
  | cons a t ih =>
    simp only [setAllPure, List.foldl_cons]
    rw [show (List.foldl (fun acc nn => updateFlag acc nn (.bool true))
        (updateFlag fs a (.bool true)) t) = setAllPure (updateFlag fs a (.bool true)) t from rfl]
    by_cases hmem : n ∈ t
    · exact ih (updateFlag fs a (.bool true)) hmem (by rw [lookup_update_isSome]; exact hs)
    · have ha : n = a := by
        rcases List.mem_cons.1 h with h1 | h2
        · exact h1
        · exact absurd h2 hmem
      subst ha
      rw [lookup_setAllPure_not_mem t (updateFlag fs n (.bool true)) n hmem]
      exact lookup_update_self fs n (.bool true) hs

theorem lookup_setAllPure_true (l : List String) (fs : FlagStore) (n : String)
    (h : lookupFlag fs n = some (.bool true)) :
    lookupFlag (setAllPure fs l) n = some (.bool true) := by
  by_cases hmem : n ∈ l
  · exact lookup_setAllPure_mem l fs n hmem (by simp [h])
  · rw [lookup_setAllPure_not_mem l fs n hmem]; exact h

theorem isBoolFlag_setAllPure (l : List String) (fs : FlagStore) (n : String)
    (h : isBoolFlag fs n = true) :
    isBoolFlag (setAllPure fs l) n = true := by
  induction l generalizing fs with
  | nil => exact h
  | cons a t ih =>
    simp only [setAllPure, List.foldl_cons]
    rw [show (List.foldl (fun acc nn => updateFlag acc nn (.bool true))
        (updateFlag fs a (.bool true)) t) = setAllPure (updateFlag fs a (.bool true)) t from rfl]
    exact ih (updateFlag fs a (.bool true)) (isBoolFlag_update fs a n h)

theorem targetsAreBool_setAllPure (l : List String) (fs : FlagStore)
    (h : targetsAreBool fs = true) : targetsAreBool (setAllPure fs l) = true := by
  unfold targetsAreBool at h ⊢
  rw [List.all_eq_true] at h ⊢
  intro n hn
  exact isBoolFlag_setAllPure l fs n (h n hn)

theorem setAllPure_nil (fs : FlagStore) : setAllPure fs [] = fs := rfl

theorem setAllPure_cons (fs : FlagStore) (a : String) (t : List String) :
    setAllPure fs (a :: t) = setAllPure (updateFlag fs a (.bool true)) t := rfl

theorem isBoolFlag_lookup (fs : FlagStore) (n : String) (h : isBoolFlag fs n = true) :
    ∃ b, lookupFlag fs n = some (.bool b) := by
  unfold isBoolFlag at h
  cases hl : lookupFlag fs n with
  | none => rw [hl] at h; simp at h
  | some v =>
    cases v with
    | bool b => exact ⟨b, rfl⟩
    | str s => rw [hl] at h; simp at h
    | strList l => rw [hl] at h; simp at h
    | num raw => rw [hl] at h; simp at h

theorem getBool_error_false (fs : FlagStore) (n : String)
    (h : (getBool fs n).2.isSome) : (getBool fs n).1 = false := by
  unfold getBool at h ⊢
  cases hl : lookupFlag fs n with
  | none => simp
  | some v =>
    cases v with
    | bool b => rw [hl] at h; simp at h
    | str s => simp
    | strList l => simp
    | num raw => simp

theorem setAll_eq (l : List String) : ∀ (fs : FlagStore),
    (∀ n ∈ l, isBoolFlag fs n = true) → setAll fs l = .ok (setAllPure fs l) := by
  induction l with
  | nil => intro fs _; rfl
  | cons a t ih =>
    intro fs h
    obtain ⟨b, hb⟩ := isBoolFlag_lookup fs a (h a (List.mem_cons_self a t))
    have hset : setFlag fs a "true" = .ok (updateFlag fs a (.bool true)) := by
      unfold setFlag
      rw [hb]
      rfl
    have hrest : ∀ n ∈ t, isBoolFlag (updateFlag fs a (.bool true)) n = true :=
      fun n hn => isBoolFlag_update fs a n (h n (List.mem_cons_of_mem a hn))
    calc setAll fs (a :: t)
        = setFlag fs a "true" >>= fun acc => setAll acc t := by
          simp [setAll, List.foldlM_cons]
      _ = setAll (updateFlag fs a (.bool true)) t := by
          rw [hset]
          rfl
      _ = .ok (setAllPure (updateFlag fs a (.bool true)) t) := ih _ hrest
      _ = .ok (setAllPure fs (a :: t)) := by rw [setAllPure_cons]

theorem applyRulePure_false (fs : FlagStore) (r : AliasRule)
    (h : (getBool fs r.flag).1 = false) : applyRulePure fs r = fs := by
  unfold applyRulePure
  simp [h]

theorem applyRulePure_true (fs : FlagStore) (r : AliasRule)
    (h : (getBool fs r.flag).1 = true) : applyRulePure fs r = setAllPure fs r.targets := by
  unfold applyRulePure
  simp [h]

theorem applyRule_eq (fs : FlagStore) (r : AliasRule)
    (hw : targetsAreBool fs = true) (hr : RuleOK r) :
    applyRule fs r = .ok (applyRulePure fs r) := by
  unfold applyRule applyRulePure
  cases hg : (getBool fs r.flag).1 with
  | false => simp
  | true =>
    simp only [if_pos rfl]
    refine setAll_eq r.targets fs (fun n hn => ?_)
    have hmem : n ∈ semanticFlagNames := hr.1 hn
    unfold targetsAreBool at hw
    rw [List.all_eq_true] at hw
    exact hw n hmem

theorem targetsAreBool_applyRulePure (fs : FlagStore) (r : AliasRule)
    (hw : targetsAreBool fs = true) : targetsAreBool (applyRulePure fs r) = true := by
  unfold applyRulePure
  cases hg : (getBool fs r.flag).1 with
  | false => simpa using hw
  | true =>
    simp only [if_pos rfl]
    exact targetsAreBool_setAllPure r.targets fs hw

theorem resolveAliases_eq (rules : List AliasRule) : ∀ (fs : FlagStore),
    targetsAreBool fs = true → (∀ r ∈ rules, RuleOK r) →
    resolveAliases fs rules = .ok (resolvePure fs rules) := by
  induction rules with
  | nil => intro fs _ _; rfl
  | cons a t ih =>
    intro fs hw h
    have ha : RuleOK a := h a (List.mem_cons_self a t)
    calc resolveAliases fs (a :: t)
        = applyRule fs a >>= fun acc => resolveAliases acc t := by
          simp [resolveAliases, List.foldlM_cons]
      _ = resolveAliases (applyRulePure fs a) t := by
          rw [applyRule_eq fs a hw ha]
          rfl
      _ = .ok (resolvePure (applyRulePure fs a) t) :=
          ih _ (targetsAreBool_applyRulePure fs a hw)
            (fun r hr => h r (List.mem_cons_of_mem a hr))
      _ = .ok (resolvePure fs (a :: t)) := rfl

theorem getBool_setAllPure_not_mem (l : List String) (fs : FlagStore) (n : String)
    (h : n ∉ l) : getBool (setAllPure fs l) n = getBool fs n := by
  unfold getBool
  rw [lookup_setAllPure_not_mem l fs n h]

theorem getBool_applyRulePure_stable (fs : FlagStore) (r : AliasRule) (n : String)
    (hsub : r.targets ⊆ semanticFlagNames) (hn : n ∉ semanticFlagNames) :
    getBool (applyRulePure fs r) n = getBool fs n := by
  unfold applyRulePure
  cases hg : (getBool fs r.flag).1 with
  | false => simp
  | true =>
    simp only [if_pos rfl]
    exact getBool_setAllPure_not_mem r.targets fs n (fun hmm => hn (hsub hmm))

theorem updateFlag_comm (fs : FlagStore) (n m : String) (v : FlagVal) :
    updateFlag (updateFlag fs n v) m v = updateFlag (updateFlag fs m v) n v := by
  induction fs with
  | nil => rfl
  | cons hd tl ih =>
    obtain ⟨k, w⟩ := hd
    by_cases hn : k = n
    · by_cases hm : k = m
      · subst hn
        subst hm
        rfl
      · subst hn
        simp [updateFlag, hm]
    · by_cases hm : k = m
      · subst hm
        simp [updateFlag, hn]
      · simp [updateFlag, hn, hm, ih]

theorem setAllPure_update_comm (l : List String) : ∀ (fs : FlagStore) (n : String),
    setAllPure (updateFlag fs n (.bool true)) l =
      updateFlag (setAllPure fs l) n (.bool true) := by
  induction l with
  | nil => intro fs n; rfl
  | cons a t ih =>
    intro fs n
    rw [setAllPure_cons, updateFlag_comm fs n a (.bool true), ih, setAllPure_cons]

theorem setAllPure_comm (l1 : List String) : ∀ (l2 : List String) (fs : FlagStore),
    setAllPure (setAllPure fs l1) l2 = setAllPure (setAllPure fs l2) l1 := by
  induction l1 with
  | nil => intro l2 fs; rfl
  | cons a t ih =>
    intro l2 fs
    rw [setAllPure_cons, ih l2 (updateFlag fs a (.bool true)),
      setAllPure_update_comm, ← setAllPure_cons]

theorem applyRulePure_comm (fs : FlagStore) (a b : AliasRule)
    (ha : RuleOK a) (hb : RuleOK b) :
    applyRulePure (applyRulePure fs a) b = applyRulePure (applyRulePure fs b) a := by
  have h1 : getBool (applyRulePure fs a) b.flag = getBool fs b.flag :=
    getBool_applyRulePure_stable fs a b.flag ha.1 hb.2
  have h2 : getBool (applyRulePure fs b) a.flag = getBool fs a.flag :=
    getBool_applyRulePure_stable fs b a.flag hb.1 ha.2
  cases hga : (getBool fs a.flag).1 with
  | false =>
    rw [applyRulePure_false fs a hga,
      applyRulePure_false (applyRulePure fs b) a (by rw [h2]; exact hga)]
  | true =>
    rw [applyRulePure_true fs a hga,
      applyRulePure_true (applyRulePure fs b) a (by rw [h2]; exact hga)]
    cases hgb : (getBool fs b.flag).1 with
    | false =>
      rw [applyRulePure_false (setAllPure fs a.targets) b (by rw [show getBool (setAllPure fs a.targets) b.flag = getBool fs b.flag from by rw [← applyRulePure_true fs a hga]; exact h1]; exact hgb),
        applyRulePure_false fs b hgb]
    | true =>
      rw [applyRulePure_true (setAllPure fs a.targets) b (by rw [show getBool (setAllPure fs a.targets) b.flag = getBool fs b.flag from by rw [← applyRulePure_true fs a hga]; exact h1]; exact hgb),
        applyRulePure_true fs b hgb]
      exact setAllPure_comm a.targets b.targets fs

theorem resolvePure_perm (l1 l2 : List AliasRule) (p : l1.Perm l2)
    (h : ∀ r ∈ l1, RuleOK r) (fs : FlagStore) :
    resolvePure fs l1 = resolvePure fs l2 := by
  unfold resolvePure
  exact p.foldl_eq' (fun x hx y hy z => applyRulePure_comm z x y (h x hx) (h y hy)) fs

theorem ruleOK_aliasRules : ∀ r ∈ aliasRules, RuleOK r := by decide

theorem targetsAreBool_mem (fs : FlagStore) (n : String)
    (hw : targetsAreBool fs = true) (hn : n ∈ semanticFlagNames) :
    isBoolFlag fs n = true := by
  unfold targetsAreBool at hw
  rw [List.all_eq_true] at hw
  exact hw n hn

theorem isBoolFlag_isSome (fs : FlagStore) (n : String)
    (h : isBoolFlag fs n = true) : (lookupFlag fs n).isSome := by
  obtain ⟨b, hb⟩ := isBoolFlag_lookup fs n h
  simp [hb]

theorem getBool_true_lookup (fs : FlagStore) (n : String)
    (h : (getBool fs n).1 = true) : lookupFlag fs n = some (.bool true) := by
  unfold getBool at h
  cases hl : lookupFlag fs n with
  | none => rw [hl] at h; simp at h
  | some v =>
    cases v with
    | bool b => rw [hl] at h; simp at h; rw [h]
    | str s => rw [hl] at h; simp at h
    | strList l => rw [hl] at h; simp at h
    | num raw => rw [hl] at h; simp at h

theorem lookup_applyRulePure_true (fs : FlagStore) (r : AliasRule) (n : String)
    (h : lookupFlag fs n = some (.bool true)) :
    lookupFlag (applyRulePure fs r) n = some (.bool true) := by
  cases hg : (getBool fs r.flag).1 with
  | false => rw [applyRulePure_false fs r hg]; exact h
  | true => rw [applyRulePure_true fs r hg]; exact lookup_setAllPure_true r.targets fs n h

theorem getBool_applyRulePure_not_target (fs : FlagStore) (r : AliasRule) (n : String)
    (h : n ∉ r.targets) : getBool (applyRulePure fs r) n = getBool fs n := by
  cases hg : (getBool fs r.flag).1 with
  | false => rw [applyRulePure_false fs r hg]
  | true => rw [applyRulePure_true fs r hg]; exact getBool_setAllPure_not_mem r.targets fs n h

theorem lookup_applyRulePure_frame (fs : FlagStore) (r : AliasRule) (n : String)
    (h : (getBool fs r.flag).1 = true → n ∉ r.targets) :
    lookupFlag (applyRulePure fs r) n = lookupFlag fs n := by
  cases hg : (getBool fs r.flag).1 with
  | false => rw [applyRulePure_false fs r hg]
  | true => rw [applyRulePure_true fs r hg]; exact lookup_setAllPure_not_mem r.targets fs n (h hg)

theorem preRunE_eq (fs : FlagStore) (hw : targetsAreBool fs = true) :
    preRunE fs = .ok (resolvePure fs aliasRules) :=
  resolveAliases_eq aliasRules fs hw ruleOK_aliasRules

theorem resolvePure_aliasRules_eq (fs : FlagStore) :
    resolvePure fs aliasRules =
      applyRulePure (applyRulePure (applyRulePure fs ⟨"semantic", semanticFlagNames⟩)
          ⟨"ignore-timestamps", timestampsFlagNames⟩)
        ⟨"ignore-file-timestamps", fileTimestampsFlagNames⟩ := rfl

theorem mem_activeTargets (fs : FlagStore) (n : String) :
    n ∈ activeTargets fs ↔
      (((getBool fs "semantic").1 = true ∧ n ∈ semanticFlagNames) ∨
       ((getBool fs "ignore-timestamps").1 = true ∧ n ∈ timestampsFlagNames) ∨
       ((getBool fs "ignore-file-timestamps").1 = true ∧ n ∈ fileTimestampsFlagNames)) := by
  unfold activeTargets aliasRules
  simp only [List.foldr_cons, List.foldr_nil]
  cases hs : (getBool fs "semantic").1 <;>
    cases ht : (getBool fs "ignore-timestamps").1 <;>
      cases hft : (getBool fs "ignore-file-timestamps").1 <;>
        simp [List.mem_append]

/-- C2: for every raw flag set (with the ten target flags registered as
bool flags), semantic=true makes all ten aliased flags resolve true
independent of their raw values, and alias expansion never turns a true
flag false. -/
theorem semantic_alias_forces_targets_true (fs : FlagStore)
    (hw : targetsAreBool fs = true) :
    ((getBool fs "semantic").1 = true →
      ∃ fs2, preRunE fs = .ok fs2 ∧
        ∀ n ∈ semanticFlagNames, getBool fs2 n = (true, none)) ∧
    (∀ fs2 n, preRunE fs = .ok fs2 → (getBool fs n).1 = true →
      (getBool fs2 n).1 = true) := by
  have hrun : preRunE fs = .ok (resolvePure fs aliasRules) := preRunE_eq fs hw
  constructor
  · intro hs
    refine ⟨resolvePure fs aliasRules, hrun, ?_⟩
    intro n hn
    rw [resolvePure_aliasRules_eq]
    have h1 : lookupFlag (applyRulePure fs ⟨"semantic", semanticFlagNames⟩) n =
        some (.bool true) := by
      rw [applyRulePure_true fs ⟨"semantic", semanticFlagNames⟩ hs]
      exact lookup_setAllPure_mem semanticFlagNames fs n hn
        (isBoolFlag_isSome fs n (targetsAreBool_mem fs n hw hn))
    have h2 := lookup_applyRulePure_true _ ⟨"ignore-timestamps", timestampsFlagNames⟩ n h1
    have h3 := lookup_applyRulePure_true _ ⟨"ignore-file-timestamps", fileTimestampsFlagNames⟩ n h2
    unfold getBool
    rw [h3]
  · intro fs2 n h2 htrue
    rw [hrun] at h2
    injection h2 with h2
    subst h2
    rw [resolvePure_aliasRules_eq]
    have hl := getBool_true_lookup fs n htrue
    have hl1 := lookup_applyRulePure_true fs ⟨"semantic", semanticFlagNames⟩ n hl
    have hl2 := lookup_applyRulePure_true _ ⟨"ignore-timestamps", timestampsFlagNames⟩ n hl1
    have hl3 := lookup_applyRulePure_true _ ⟨"ignore-file-timestamps", fileTimestampsFlagNames⟩ n hl2
    unfold getBool
    rw [hl3]

/-- Witness for C2 at the concrete flag set where only semantic=true. -/
theorem semantic_alias_forces_targets_true_witness :
    targetsAreBool semanticOnStore = true ∧
    (((getBool semanticOnStore "semantic").1 = true →
      ∃ fs2, preRunE semanticOnStore = .ok fs2 ∧
        ∀ n ∈ semanticFlagNames, getBool fs2 n = (true, none)) ∧
    (∀ fs2 n, preRunE semanticOnStore = .ok fs2 →
      (getBool semanticOnStore n).1 = true → (getBool fs2 n).1 = true)) :=
  ⟨by decide, semantic_alias_forces_targets_true semanticOnStore (by decide)⟩

/-- C3: ignore-timestamps=true makes the three file-timestamp flags and
ignore-image-timestamps resolve true; ignore-file-timestamps=true makes
only the three file-timestamp flags resolve true and leaves
ignore-image-timestamps at its raw value (when no other alias forces
it). -/
theorem timestamp_alias_scopes (fs : FlagStore) (hw : targetsAreBool fs = true) :
    (((getBool fs "ignore-timestamps").1 = true →
      ∃ fs2, preRunE fs = .ok fs2 ∧
        ∀ n ∈ timestampsFlagNames, getBool fs2 n = (true, none)) ∧
    ((getBool fs "ignore-file-timestamps").1 = true →
      ∃ fs2, preRunE fs = .ok fs2 ∧
        ∀ n ∈ fileTimestampsFlagNames, getBool fs2 n = (true, none)) ∧
    ((getBool fs "semantic").1 = false → (getBool fs "ignore-timestamps").1 = false →
      ∃ fs2, preRunE fs = .ok fs2 ∧
        getBool fs2 "ignore-image-timestamps" = getBool fs "ignore-image-timestamps")) := by
  have hrun : preRunE fs = .ok (resolvePure fs aliasRules) := preRunE_eq fs hw
  have hsubT : timestampsFlagNames ⊆ semanticFlagNames := by decide
  have hsubF : fileTimestampsFlagNames ⊆ semanticFlagNames := by decide
  have hr1 : getBool (applyRulePure fs ⟨"semantic", semanticFlagNames⟩)
      "ignore-timestamps" = getBool fs "ignore-timestamps" :=
    getBool_applyRulePure_not_target fs ⟨"semantic", semanticFlagNames⟩
      "ignore-timestamps" (by decide)
  have hr2 : getBool (applyRulePure (applyRulePure fs ⟨"semantic", semanticFlagNames⟩)
        ⟨"ignore-timestamps", timestampsFlagNames⟩)
      "ignore-file-timestamps" = getBool fs "ignore-file-timestamps" := by
    rw [getBool_applyRulePure_not_target _ ⟨"ignore-timestamps", timestampsFlagNames⟩
        "ignore-file-timestamps" (by decide),
      getBool_applyRulePure_not_target _ ⟨"semantic", semanticFlagNames⟩
        "ignore-file-timestamps" (by decide)]
  refine ⟨?_, ?_, ?_⟩
  · intro ht
    refine ⟨resolvePure fs aliasRules, hrun, ?_⟩
    intro n hn
    rw [resolvePure_aliasRules_eq]
    have hb1 : targetsAreBool (applyRulePure fs ⟨"semantic", semanticFlagNames⟩) = true :=
      targetsAreBool_applyRulePure fs _ hw
    have h2 : lookupFlag (applyRulePure (applyRulePure fs ⟨"semantic", semanticFlagNames⟩)
        ⟨"ignore-timestamps", timestampsFlagNames⟩) n = some (.bool true) := by
      rw [applyRulePure_true _ ⟨"ignore-timestamps", timestampsFlagNames⟩ (by rw [hr1]; exact ht)]
      exact lookup_setAllPure_mem timestampsFlagNames _ n hn
        (isBoolFlag_isSome _ n (targetsAreBool_mem _ n hb1 (hsubT hn)))
    have h3 := lookup_applyRulePure_true _ ⟨"ignore-file-timestamps", fileTimestampsFlagNames⟩ n h2
    unfold getBool
    rw [h3]
  · intro hft
    refine ⟨resolvePure fs aliasRules, hrun, ?_⟩
    intro n hn
    rw [resolvePure_aliasRules_eq]
    have hb1 : targetsAreBool (applyRulePure fs ⟨"semantic", semanticFlagNames⟩) = true :=
      targetsAreBool_applyRulePure fs _ hw
    have hb2 : targetsAreBool (applyRulePure (applyRulePure fs ⟨"semantic", semanticFlagNames⟩)
        ⟨"ignore-timestamps", timestampsFlagNames⟩) = true :=
      targetsAreBool_applyRulePure _ _ hb1
    have h3 : lookupFlag (applyRulePure (applyRulePure (applyRulePure fs
        ⟨"semantic", semanticFlagNames⟩) ⟨"ignore-timestamps", timestampsFlagNames⟩)
        ⟨"ignore-file-timestamps", fileTimestampsFlagNames⟩) n = some (.bool true) := by
      rw [applyRulePure_true _ ⟨"ignore-file-timestamps", fileTimestampsFlagNames⟩
        (by rw [hr2]; exact hft)]
      exact lookup_setAllPure_mem fileTimestampsFlagNames _ n hn
        (isBoolFlag_isSome _ n (targetsAreBool_mem _ n hb2 (hsubF hn)))
    unfold getBool
    rw [h3]
  · intro hs ht
    refine ⟨resolvePure fs aliasRules, hrun, ?_⟩
    rw [resolvePure_aliasRules_eq,
      applyRulePure_false fs ⟨"semantic", semanticFlagNames⟩ hs,
      applyRulePure_false fs ⟨"ignore-timestamps", timestampsFlagNames⟩ ht]
    exact getBool_applyRulePure_not_target fs
      ⟨"ignore-file-timestamps", fileTimestampsFlagNames⟩ "ignore-image-timestamps" (by decide)

/-- Witness for C3 at the concrete flag set where only
ignore-file-timestamps=true. -/
theorem timestamp_alias_scopes_witness :
    targetsAreBool fileTimestampsOnStore = true ∧
    (((getBool fileTimestampsOnStore "ignore-timestamps").1 = true →
      ∃ fs2, preRunE fileTimestampsOnStore = .ok fs2 ∧
        ∀ n ∈ timestampsFlagNames, getBool fs2 n = (true, none)) ∧
    ((getBool fileTimestampsOnStore "ignore-file-timestamps").1 = true →
      ∃ fs2, preRunE fileTimestampsOnStore = .ok fs2 ∧
        ∀ n ∈ fileTimestampsFlagNames, getBool fs2 n = (true, none)) ∧
    ((getBool fileTimestampsOnStore "semantic").1 = false →
      (getBool fileTimestampsOnStore "ignore-timestamps").1 = false →
      ∃ fs2, preRunE fileTimestampsOnStore = .ok fs2 ∧
        getBool fs2 "ignore-image-timestamps" =
          getBool fileTimestampsOnStore "ignore-image-timestamps")) :=
  ⟨by decide, timestamp_alias_scopes fileTimestampsOnStore (by decide)⟩

/-- C4: on any raw flag set with the ten target flags registered as bool
flags, every evaluation order of the three alias rules produces exactly
the flag set of the fixed source order (semantic, then ignore-timestamps,
then ignore-file-timestamps). -/
theorem alias_order_commutes (fs : FlagStore) (ord : List AliasRule)
    (hw : targetsAreBool fs = true) (hp : ord.Perm aliasRules) :
    resolveAliases fs ord = preRunE fs := by
  have hall : ∀ r ∈ ord, RuleOK r := fun r hr => ruleOK_aliasRules r (hp.mem_iff.1 hr)
  rw [resolveAliases_eq ord fs hw hall, preRunE_eq fs hw,
    resolvePure_perm ord aliasRules hp hall fs]

/-- Witness for C4: a reversed evaluation order on a flag set with both
semantic and ignore-timestamps supplied. -/
theorem alias_order_commutes_witness :
    targetsAreBool semanticOnStore = true ∧
    ([(⟨"ignore-file-timestamps", fileTimestampsFlagNames⟩ : AliasRule),
      ⟨"ignore-timestamps", timestampsFlagNames⟩,
      ⟨"semantic", semanticFlagNames⟩] : List AliasRule).Perm aliasRules ∧
    resolveAliases semanticOnStore
      [⟨"ignore-file-timestamps", fileTimestampsFlagNames⟩,
       ⟨"ignore-timestamps", timestampsFlagNames⟩,
       ⟨"semantic", semanticFlagNames⟩] = preRunE semanticOnStore :=
  ⟨by decide, by decide,
    alias_order_commutes semanticOnStore _ (by decide) (by decide)⟩

/-- C9: when reading the bool value of an alias flag fails, the error is
discarded, the alias counts as false, its expansion is skipped without
aborting, and resolution continues with the remaining rules. -/
theorem alias_read_error_skips_expansion (fs : FlagStore) (rules : List AliasRule)
    (r : AliasRule) ( _hr : r ∈ aliasRules) (h : (getBool fs r.flag).2.isSome) :
    resolveAliases fs (r :: rules) = resolveAliases fs rules := by
  have hfalse : (getBool fs r.flag).1 = false := getBool_error_false fs r.flag h
  have happ : applyRule fs r = .ok fs := by
    unfold applyRule
    rw [hfalse]
    rfl
  calc resolveAliases fs (r :: rules)
      = applyRule fs r >>= fun acc => resolveAliases acc rules := by
        simp [resolveAliases, List.foldlM_cons]
    _ = resolveAliases fs rules := by rw [happ]; rfl

/-- Witness for C9: the empty store makes the semantic read fail; the
semantic expansion is skipped and resolution continues. -/
theorem alias_read_error_skips_expansion_witness :
    ((⟨"semantic", semanticFlagNames⟩ : AliasRule) ∈ aliasRules) ∧
    (getBool [] "semantic").2.isSome = true ∧
    resolveAliases [] [⟨"semantic", semanticFlagNames⟩,
        ⟨"ignore-timestamps", timestampsFlagNames⟩] =
      resolveAliases [] [⟨"ignore-timestamps", timestampsFlagNames⟩] :=
  ⟨by decide, by decide,
    alias_read_error_skips_expansion [] [⟨"ignore-timestamps", timestampsFlagNames⟩]
      ⟨"semantic", semanticFlagNames⟩ (by decide) (by decide)⟩

/-- C10: alias resolution only writes flags that are targets of an alias
whose value reads true; every other registered flag keeps its raw value
unchanged. -/
theorem alias_resolution_frame (fs : FlagStore) (hw : targetsAreBool fs = true) :
    ∃ fs2, preRunE fs = .ok fs2 ∧
      ∀ n, n ∉ activeTargets fs → lookupFlag fs2 n = lookupFlag fs n := by
  refine ⟨resolvePure fs aliasRules, preRunE_eq fs hw, ?_⟩
  intro n hn
  have hsemn : (getBool fs "semantic").1 = true → n ∉ semanticFlagNames :=
    fun h hm => hn ((mem_activeTargets fs n).2 (Or.inl ⟨h, hm⟩))
  have htsn : (getBool fs "ignore-timestamps").1 = true → n ∉ timestampsFlagNames :=
    fun h hm => hn ((mem_activeTargets fs n).2 (Or.inr (Or.inl ⟨h, hm⟩)))
  have hftn : (getBool fs "ignore-file-timestamps").1 = true → n ∉ fileTimestampsFlagNames :=
    fun h hm => hn ((mem_activeTargets fs n).2 (Or.inr (Or.inr ⟨h, hm⟩)))
  have hr1 : getBool (applyRulePure fs ⟨"semantic", semanticFlagNames⟩)
      "ignore-timestamps" = getBool fs "ignore-timestamps" :=
    getBool_applyRulePure_not_target fs ⟨"semantic", semanticFlagNames⟩
      "ignore-timestamps" (by decide)
  have hr2 : getBool (applyRulePure (applyRulePure fs ⟨"semantic", semanticFlagNames⟩)
        ⟨"ignore-timestamps", timestampsFlagNames⟩)
      "ignore-file-timestamps" = getBool fs "ignore-file-timestamps" := by
    rw [getBool_applyRulePure_not_target _ ⟨"ignore-timestamps", timestampsFlagNames⟩
        "ignore-file-timestamps" (by decide),
      getBool_applyRulePure_not_target _ ⟨"semantic", semanticFlagNames⟩
        "ignore-file-timestamps" (by decide)]
  rw [resolvePure_aliasRules_eq]
  rw [lookup_applyRulePure_frame _ ⟨"ignore-file-timestamps", fileTimestampsFlagNames⟩ n
    (fun h => hftn (by rw [← hr2]; exact h))]
  rw [lookup_applyRulePure_frame _ ⟨"ignore-timestamps", timestampsFlagNames⟩ n
    (fun h => htsn (by rw [← hr1]; exact h))]
  exact lookup_applyRulePure_frame fs ⟨"semantic", semanticFlagNames⟩ n hsemn

/-- Witness for C10 at the concrete flag set where only
ignore-timestamps=true. -/
theorem alias_resolution_frame_witness :
    targetsAreBool timestampsOnStore = true ∧
    (∃ fs2, preRunE timestampsOnStore = .ok fs2 ∧
      ∀ n, n ∉ activeTargets timestampsOnStore → lookupFlag fs2 n = lookupFlag timestampsOnStore n) :=
  ⟨by decide, alias_resolution_frame timestampsOnStore (by decide)⟩

/-- C1: the final exit status follows the precedence non-nil error ⇒ 2,
else non-nil report with at least one child ⇒ 1, else 0; `interpretResult`
embeds the exit logic of diff.go:253-268 and `classifyOutcome` restates
the spec's three-state classification. -/
theorem exit_code_precedence (report : Option DiffReport) (err : Option GoError) :
    (interpretResult report err).1 = (classifyOutcome report err).exitStatus := by
  cases err with
  | some e =>
    cases report <;>
      simp [interpretResult, classifyOutcome, ExecutionOutcome.exitStatus]
  | none =>
    cases report with
    | none => simp [interpretResult, classifyOutcome, ExecutionOutcome.exitStatus]
    | some rep =>
      by_cases h : 0 < rep.children.length <;>
        simp [interpretResult, classifyOutcome, ExecutionOutcome.exitStatus, h]

theorem interpretResult_filter_errorLog_some (rep : Option DiffReport) (e : GoError) :
    (interpretResult rep (some e)).2.filter Event.isErrorLog =
      [Event.errorLog (if e.unavailable then e.message ++ diffHint else e.message)] := by
  cases he : e.unavailable <;>
    simp [interpretResult, he, Event.isErrorLog, List.filter_append]

theorem interpretResult_filter_acq (rep : Option DiffReport) (err : Option GoError) :
    (interpretResult rep err).2.filter Event.isAcq = [] := by
  cases err with
  | some e =>
    simp [interpretResult, Event.isAcq, Event.isCallGet, Event.isDebugInput,
      List.filter_append]
  | none =>
    unfold interpretResult
    split <;> simp_all [Event.isAcq, Event.isCallGet, Event.isDebugInput]

theorem interpretResult_filter_callDiff (rep : Option DiffReport) (err : Option GoError) :
    (interpretResult rep err).2.filter Event.isCallDiff = [] := by
  cases err with
  | some e => simp [interpretResult, Event.isCallDiff, List.filter_append]
  | none =>
    unfold interpretResult
    split <;> simp_all [Event.isCallDiff]

theorem interpretResult_count_warn (rep : Option DiffReport) (err : Option GoError) :
    (interpretResult rep err).2.count Event.warnReportFileExperimental = 0 := by
  cases err with
  | some e => simp [interpretResult, List.count_append, List.count_cons, List.count_nil]
  | none =>
    unfold interpretResult
    cases rep with
    | none => simp
    | some rp =>
      by_cases h : rp.children = [] <;>
        simp [h, List.length_pos, List.count_append, List.count_cons, List.count_nil]

theorem readCoreOptions_store (r : RawFlags) :
    readCoreOptions r.store = .ok
      ⟨r.ignoreHistory, r.ignoreFileOrder, r.ignoreFileModeRedundantBits,
       r.ignoreFileMTime, r.ignoreFileATime, r.ignoreFileCTime,
       r.extraIgnoreFilePermissions, r.extraIgnoreFileMode, r.extraIgnoreFileContent,
       r.extraIgnoreLayerLengthMismatch, r.extraIgnoreFiles, r.ignoreImageTimestamps,
       r.ignoreImageName, r.ignoreTarFormat, r.treatCanonicalPathsEqual,
       "", "", false, "1.0"⟩ := rfl

theorem getStringE_reportFile (r : RawFlags) :
    getStringE r.store "report-file" = .ok r.reportFile := rfl

theorem getStringE_reportDir (r : RawFlags) :
    getStringE r.store "report-dir" = .ok r.reportDir := rfl

theorem getBoolE_verbose (r : RawFlags) :
    getBoolE r.store "verbose" = .ok r.verbose := rfl

theorem getFloatE_maxScale (r : RawFlags) :
    getFloatE r.store "max-scale" = .ok r.maxScale := rfl

theorem getStringE_pull (r : RawFlags) :
    getStringE r.store "pull" = .ok r.pull := rfl

theorem expandReportPath_ok (env : Env) (fl p : String)
    (h : (env.expand p).2 = none) :
    expandReportPath env fl p = .ok (env.expand p).1 := by
  unfold expandReportPath
  cases henv : env.expand p with
  | mk v e =>
    rw [henv] at h
    simp only at h
    subst h
    rfl

theorem expandReportPath_err (env : Env) (fl p : String) (e : GoError)
    (h : (env.expand p).2 = some e) :
    expandReportPath env fl p = .error
      ⟨"invalid " ++ fl ++ " path " ++ quoteGo (env.expand p).1 ++ ": " ++ e.message,
       e.unavailable⟩ := by
  unfold expandReportPath
  cases henv : env.expand p with
  | mk v e2 =>
    rw [henv] at h
    simp only at h
    subst h
    rfl

theorem actionTail_run (env : Env) (r : RawFlags) (arg0 arg1 : String)
    (ev : List Event) (opts : DiffOptions) (hG : env.imageGetterNew = .ok ()) :
    actionTail env r.store arg0 arg1 ev opts =
      acquireAndCompare env arg0 arg1 ev
        { opts with verboseHandler := r.verbose, maxScale := r.maxScale } := by
  simp only [actionTail, getBoolE_verbose, getFloatE_maxScale, getStringE_pull, hG]

theorem action_run (env : Env) (r : RawFlags) (arg0 arg1 : String) (plats : List String)
    (hB : env.newBackend = .ok ()) (hP : env.parsePlatformFlags = .ok plats)
    (hrf : r.reportFile = "" ∨ (env.expand r.reportFile).2 = none)
    (hrd : r.reportDir = "" ∨ (env.expand r.reportDir).2 = none) :
    ∃ (opts : DiffOptions) (pre : List Event),
      action env r.store arg0 arg1 = actionTail env r.store arg0 arg1 pre opts ∧
      pre.filter Event.isCallGet = [] ∧
      pre.filter Event.isCallDiff = [] ∧
      pre.filter Event.isErrorLog = [] ∧
      pre.filter Event.isAcq = [] ∧
      pre.count Event.warnReportFileExperimental = (if r.reportFile = "" then 0 else 1) := by
  by_cases hc : r.reportFile = ""
  · by_cases hd : r.reportDir = ""
    · exact ⟨_, [Event.infoTargetPlatforms plats],
        by simp only [action, hB, hP, readCoreOptions_store, getStringE_reportFile, hc,
          if_pos, actionReportDir, getStringE_reportDir, hd, reduceIte]; rfl,
        rfl, rfl, rfl, rfl, by simp [hc]⟩
    · rcases hrd with h | h
      · exact absurd h hd
      · exact ⟨_, [Event.infoTargetPlatforms plats],
          by simp only [action, hB, hP, readCoreOptions_store, getStringE_reportFile, hc,
            actionReportDir, getStringE_reportDir, hd, reduceIte,
            expandReportPath_ok env "report-dir" r.reportDir h]; rfl,
          rfl, rfl, rfl, rfl, by simp [hc]⟩
  · rcases hrf with h | h
    · exact absurd h hc
    · by_cases hd : r.reportDir = ""
      · exact ⟨_, [Event.infoTargetPlatforms plats, Event.warnReportFileExperimental],
          by simp only [action, hB, hP, readCoreOptions_store, getStringE_reportFile, hc,
            reduceIte, expandReportPath_ok env "report-file" r.reportFile h,
            List.singleton_append, actionReportDir, getStringE_reportDir, hd]; rfl,
          rfl, rfl, rfl, rfl, by simp [hc, List.count_cons]⟩
      · rcases hrd with h2 | h2
        · exact absurd h2 hd
        · exact ⟨_, [Event.infoTargetPlatforms plats, Event.warnReportFileExperimental],
            by simp only [action, hB, hP, readCoreOptions_store, getStringE_reportFile, hc,
              reduceIte, expandReportPath_ok env "report-file" r.reportFile h,
              List.singleton_append, actionReportDir, getStringE_reportDir, hd,
              expandReportPath_ok env "report-dir" r.reportDir h2]; rfl,
            rfl, rfl, rfl, rfl, by simp [hc, List.count_cons]⟩

theorem acquireAndCompare_get0_err (env : Env) (arg0 arg1 : String) (ev : List Event)
    (opts : DiffOptions) (e : GoError) (h0 : env.getImage 0 arg0 = .error e) :
    acquireAndCompare env arg0 arg1 ev opts =
      (ev ++ [Event.callGet 0 arg0], .returnedError e) := by
  simp only [acquireAndCompare, h0]

theorem acquireAndCompare_get1_err (env : Env) (arg0 arg1 : String) (ev : List Event)
    (opts : DiffOptions) (img0 : ResolvedImage) (e : GoError)
    (h0 : env.getImage 0 arg0 = .ok img0) (h1 : env.getImage 1 arg1 = .error e) :
    acquireAndCompare env arg0 arg1 ev opts =
      (ev ++ [Event.callGet 0 arg0] ++ [Event.debugInput 0 img0.name img0.target.digest]
        ++ [Event.callGet 1 arg1], .returnedError e) := by
  simp only [acquireAndCompare, h0, h1]

theorem acquireAndCompare_ok (env : Env) (arg0 arg1 : String) (ev : List Event)
    (opts : DiffOptions) (img0 img1 : ResolvedImage)
    (h0 : env.getImage 0 arg0 = .ok img0) (h1 : env.getImage 1 arg1 = .ok img1) :
    acquireAndCompare env arg0 arg1 ev opts =
      (ev ++ [Event.callGet 0 arg0] ++ [Event.debugInput 0 img0.name img0.target.digest]
        ++ [Event.callGet 1 arg1] ++ [Event.debugInput 1 img1.name img1.target.digest]
        ++ [Event.callDiff img0.target img1.target]
        ++ (interpretResult env.diffResult.1 env.diffResult.2).2
        ++ [Event.exitProcess (interpretResult env.diffResult.1 env.diffResult.2).1],
       .exited (interpretResult env.diffResult.1 env.diffResult.2).1) := by
  simp only [acquireAndCompare, h0, h1]

/-- C7: image acquisition is invoked exactly twice, sequentially, index 0
bound to the first positional argument and index 1 to the second, with the
per-image debug lines interleaved in that order; an acquisition error
aborts with that error and the diff engine is never invoked. -/
theorem images_acquired_twice_in_order (env : Env) (r : RawFlags)
    (arg0 arg1 : String) (plats : List String)
    (hB : env.newBackend = .ok ()) (hP : env.parsePlatformFlags = .ok plats)
    (hrf : r.reportFile = "" ∨ (env.expand r.reportFile).2 = none)
    (hrd : r.reportDir = "" ∨ (env.expand r.reportDir).2 = none)
    (hG : env.imageGetterNew = .ok ()) :
    (∀ e, env.getImage 0 arg0 = .error e →
      (action env r.store arg0 arg1).2 = .returnedError e ∧
      (action env r.store arg0 arg1).1.filter Event.isCallGet = [Event.callGet 0 arg0] ∧
      (action env r.store arg0 arg1).1.filter Event.isCallDiff = []) ∧
    (∀ img0 e, env.getImage 0 arg0 = .ok img0 → env.getImage 1 arg1 = .error e →
      (action env r.store arg0 arg1).2 = .returnedError e ∧
      (action env r.store arg0 arg1).1.filter Event.isCallGet =
        [Event.callGet 0 arg0, Event.callGet 1 arg1] ∧
      (action env r.store arg0 arg1).1.filter Event.isCallDiff = []) ∧
    (∀ img0 img1, env.getImage 0 arg0 = .ok img0 → env.getImage 1 arg1 = .ok img1 →
      (action env r.store arg0 arg1).1.filter Event.isAcq =
        [Event.callGet 0 arg0, Event.debugInput 0 img0.name img0.target.digest,
         Event.callGet 1 arg1, Event.debugInput 1 img1.name img1.target.digest] ∧
      (action env r.store arg0 arg1).1.filter Event.isCallDiff =
        [Event.callDiff img0.target img1.target]) := by
  obtain ⟨opts, pre, hact, hcg, hcd, hel, hacq, hwc⟩ :=
    action_run env r arg0 arg1 plats hB hP hrf hrd
  rw [actionTail_run env r arg0 arg1 pre opts hG] at hact
  refine ⟨?_, ?_, ?_⟩
  · intro e h0
    rw [hact, acquireAndCompare_get0_err env arg0 arg1 pre _ e h0]
    refine ⟨rfl, ?_, ?_⟩
    · simp [List.filter_append, hcg, Event.isCallGet]
    · simp [List.filter_append, hcd, Event.isCallDiff]
  · intro img0 e h0 h1
    rw [hact, acquireAndCompare_get1_err env arg0 arg1 pre _ img0 e h0 h1]
    refine ⟨rfl, ?_, ?_⟩
    · simp [List.filter_append, hcg, Event.isCallGet, Event.isDebugInput]
    · simp [List.filter_append, hcd, Event.isCallDiff]
  · intro img0 img1 h0 h1
    rw [hact, acquireAndCompare_ok env arg0 arg1 pre _ img0 img1 h0 h1]
    constructor
    · simp [List.filter_append, hacq, Event.isAcq, Event.isCallGet, Event.isDebugInput,
        interpretResult_filter_acq]
    · simp [List.filter_append, hcd, Event.isCallDiff, interpretResult_filter_callDiff]

/-- C5: when the comparison invocation returns an error, that error is
logged exactly once at error severity; the message is the original one
with the fixed platform hint appended for unavailable errors and is
unchanged otherwise. -/
theorem unavailable_error_logged_once_with_hint (env : Env) (r : RawFlags)
    (arg0 arg1 : String) (plats : List String) (img0 img1 : ResolvedImage)
    (rep : Option DiffReport) (e : GoError)
    (hB : env.newBackend = .ok ()) (hP : env.parsePlatformFlags = .ok plats)
    (hrf : r.reportFile = "" ∨ (env.expand r.reportFile).2 = none)
    (hrd : r.reportDir = "" ∨ (env.expand r.reportDir).2 = none)
    (hG : env.imageGetterNew = .ok ())
    (h0 : env.getImage 0 arg0 = .ok img0) (h1 : env.getImage 1 arg1 = .ok img1)
    (hd : env.diffResult = (rep, some e)) :
    (action env r.store arg0 arg1).1.filter Event.isErrorLog =
      [Event.errorLog (if e.unavailable then e.message ++ diffHint else e.message)] := by
  obtain ⟨opts, pre, hact, hcg, hcd, hel, hacq, hwc⟩ :=
    action_run env r arg0 arg1 plats hB hP hrf hrd
  rw [actionTail_run env r arg0 arg1 pre opts hG] at hact
  rw [hact, acquireAndCompare_ok env arg0 arg1 pre _ img0 img1 h0 h1]
  simp [List.filter_append, hel, Event.isErrorLog, hd, interpretResult_filter_errorLog_some,
    Event.isCallGet, Event.isDebugInput, Event.isCallDiff]

/-- Witness for C5 at a concrete unavailable comparison error. -/
theorem unavailable_error_logged_once_with_hint_witness :
    (action (envWith expandId (none, some ⟨"no match for platform", true⟩))
        defaultRawFlags.store "img-a" "img-b").1.filter Event.isErrorLog =
      [Event.errorLog ("no match for platform" ++ diffHint)] :=
  unavailable_error_logged_once_with_hint
    (envWith expandId (none, some ⟨"no match for platform", true⟩)) defaultRawFlags
    "img-a" "img-b" ["linux/amd64"] ⟨"img-a", ⟨"sha256:0"⟩⟩ ⟨"img-b", ⟨"sha256:1"⟩⟩
    none ⟨"no match for platform", true⟩ rfl rfl (Or.inl rfl) (Or.inl rfl) rfl rfl rfl rfl

/-- Witness for C7: with a fully successful environment the acquisition
subtrace and the single diff invocation come out in argument order. -/
theorem images_acquired_twice_in_order_witness :
    (action (envWith expandId (none, none)) defaultRawFlags.store "img-a" "img-b").1.filter
        Event.isAcq =
      [Event.callGet 0 "img-a", Event.debugInput 0 "img-a" "sha256:0",
       Event.callGet 1 "img-b", Event.debugInput 1 "img-b" "sha256:1"] ∧
    (action (envWith expandId (none, none)) defaultRawFlags.store "img-a" "img-b").1.filter
        Event.isCallDiff = [Event.callDiff ⟨"sha256:0"⟩ ⟨"sha256:1"⟩] :=
  (images_acquired_twice_in_order (envWith expandId (none, none)) defaultRawFlags
    "img-a" "img-b" ["linux/amd64"] rfl rfl (Or.inl rfl) (Or.inl rfl) rfl).2.2
    ⟨"img-a", ⟨"sha256:0"⟩⟩ ⟨"img-b", ⟨"sha256:1"⟩⟩ rfl rfl

theorem acquireAndCompare_count_warn (env : Env) (arg0 arg1 : String) (ev : List Event)
    (opts : DiffOptions) :
    (acquireAndCompare env arg0 arg1 ev opts).1.count Event.warnReportFileExperimental =
      ev.count Event.warnReportFileExperimental := by
  unfold acquireAndCompare
  cases h0 : env.getImage 0 arg0 with
  | error e => simp [List.count_append, List.count_cons, List.count_nil]
  | ok img0 =>
    cases h1 : env.getImage 1 arg1 with
    | error e => simp [List.count_append, List.count_cons, List.count_nil]
    | ok img1 =>
      simp [List.count_append, List.count_cons, List.count_nil, interpretResult_count_warn]

theorem actionTail_count_warn (env : Env) (fs : FlagStore) (arg0 arg1 : String)
    (ev : List Event) (opts : DiffOptions) :
    (actionTail env fs arg0 arg1 ev opts).1.count Event.warnReportFileExperimental =
      ev.count Event.warnReportFileExperimental := by
  unfold actionTail
  cases hv : getBoolE fs "verbose" with
  | error e => rfl
  | ok verbose =>
    cases hm : getFloatE fs "max-scale" with
    | error e => rfl
    | ok maxScale =>
      cases hp : getStringE fs "pull" with
      | error e => rfl
      | ok pullMode =>
        cases hg : env.imageGetterNew with
        | error e => rfl
        | ok u => exact acquireAndCompare_count_warn env arg0 arg1 ev _

theorem actionReportDir_count_warn (env : Env) (fs : FlagStore) (arg0 arg1 : String)
    (ev : List Event) (opts : DiffOptions) :
    (actionReportDir env fs arg0 arg1 ev opts).1.count Event.warnReportFileExperimental =
      ev.count Event.warnReportFileExperimental := by
  unfold actionReportDir
  cases hrd : getStringE fs "report-dir" with
  | error e => rfl
  | ok rd0 =>
    by_cases h : rd0 = ""
    · simp only [h, reduceIte]
      exact actionTail_count_warn env fs arg0 arg1 ev _
    · simp only [h, reduceIte]
      cases hexp : expandReportPath env "report-dir" rd0 with
      | error e => rfl
      | ok rd1 => exact actionTail_count_warn env fs arg0 arg1 ev _

/-- C8: the experimental-format warning is logged exactly once iff a
non-empty report-file value is supplied, and never for report-dir or the
empty default. -/
theorem report_file_warning_iff_supplied (env : Env) (r : RawFlags)
    (arg0 arg1 : String) (plats : List String)
    (hB : env.newBackend = .ok ()) (hP : env.parsePlatformFlags = .ok plats) :
    (action env r.store arg0 arg1).1.count Event.warnReportFileExperimental =
      (if r.reportFile = "" then 0 else 1) := by
  simp only [action, hB, hP, readCoreOptions_store, getStringE_reportFile]
  by_cases hc : r.reportFile = ""
  · simp only [hc, reduceIte]
    rw [actionReportDir_count_warn]
    rfl
  · simp only [hc, reduceIte]
    cases hexp : expandReportPath env "report-file" r.reportFile with
    | error e =>
      simp [List.count_append, List.count_cons, List.count_nil]
    | ok rf1 =>
      rw [actionReportDir_count_warn]
      simp [List.count_append, List.count_cons, List.count_nil]

/-- Witness for C8 with a non-empty report-file. -/
theorem report_file_warning_iff_supplied_witness :
    (action (envWith expandId (none, none)) rawTildeReportFile.store
        "img-a" "img-b").1.count Event.warnReportFileExperimental =
      (if rawTildeReportFile.reportFile = "" then 0 else 1) :=
  report_file_warning_iff_supplied (envWith expandId (none, none)) rawTildeReportFile
    "img-a" "img-b" ["linux/amd64"] rfl rfl

/-- C6 (amended): a non-empty report-file or report-dir value whose
expansion fails aborts option construction before any image acquisition
or diff invocation, with an error naming the offending flag; the path the
message quotes is the string returned by the failed expansion (the Go
zero value), not necessarily the path as supplied by the user. -/
theorem report_path_expansion_failure_aborts (env : Env) (r : RawFlags)
    (arg0 arg1 : String) (plats : List String)
    (hB : env.newBackend = .ok ()) (hP : env.parsePlatformFlags = .ok plats) :
    (∀ e, r.reportFile ≠ "" → (env.expand r.reportFile).2 = some e →
      (action env r.store arg0 arg1).2 = .returnedError
        ⟨"invalid report-file path " ++ quoteGo (env.expand r.reportFile).1 ++ ": " ++
          e.message, e.unavailable⟩ ∧
      (action env r.store arg0 arg1).1.filter Event.isCallGet = [] ∧
      (action env r.store arg0 arg1).1.filter Event.isCallDiff = []) ∧
    (∀ e, (r.reportFile = "" ∨ (env.expand r.reportFile).2 = none) → r.reportDir ≠ "" →
      (env.expand r.reportDir).2 = some e →
      (action env r.store arg0 arg1).2 = .returnedError
        ⟨"invalid report-dir path " ++ quoteGo (env.expand r.reportDir).1 ++ ": " ++
          e.message, e.unavailable⟩ ∧
      (action env r.store arg0 arg1).1.filter Event.isCallGet = [] ∧
      (action env r.store arg0 arg1).1.filter Event.isCallDiff = []) := by
  constructor
  · intro e hne hsome
    have hred : action env r.store arg0 arg1 =
        ([Event.infoTargetPlatforms plats, Event.warnReportFileExperimental],
         .returnedError ⟨"invalid report-file path " ++ quoteGo (env.expand r.reportFile).1
           ++ ": " ++ e.message, e.unavailable⟩) := by
      simp only [action, hB, hP, readCoreOptions_store, getStringE_reportFile, hne,
        reduceIte, expandReportPath_err env "report-file" r.reportFile e hsome,
        List.singleton_append]
      rfl
    rw [hred]
    exact ⟨rfl, rfl, rfl⟩
  · intro e hok hne2 hsome2
    by_cases hc : r.reportFile = ""
    · have hred : action env r.store arg0 arg1 =
          ([Event.infoTargetPlatforms plats],
           .returnedError ⟨"invalid report-dir path " ++ quoteGo (env.expand r.reportDir).1
             ++ ": " ++ e.message, e.unavailable⟩) := by
        simp only [action, hB, hP, readCoreOptions_store, getStringE_reportFile, hc,
          reduceIte, actionReportDir, getStringE_reportDir, hne2,
          expandReportPath_err env "report-dir" r.reportDir e hsome2]
        rfl
      rw [hred]
      exact ⟨rfl, rfl, rfl⟩
    · have hnone : (env.expand r.reportFile).2 = none := by
        rcases hok with h | h
        · exact absurd h hc
        · exact h
      have hred : action env r.store arg0 arg1 =
          ([Event.infoTargetPlatforms plats, Event.warnReportFileExperimental],
           .returnedError ⟨"invalid report-dir path " ++ quoteGo (env.expand r.reportDir).1
             ++ ": " ++ e.message, e.unavailable⟩) := by
        simp only [action, hB, hP, readCoreOptions_store, getStringE_reportFile, hc,
          reduceIte, expandReportPath_ok env "report-file" r.reportFile hnone,
          List.singleton_append, actionReportDir, getStringE_reportDir, hne2,
          expandReportPath_err env "report-dir" r.reportDir e hsome2]
        rfl
      rw [hred]
      exact ⟨rfl, rfl, rfl⟩

/-- Witness for C6 (amended) at the concrete environment with no home
directory and report-file supplied as a tilde path. -/
theorem report_path_expansion_failure_aborts_witness :
    (action env0 rawTildeReportFile.store "img-a" "img-b").2 = .returnedError
      ⟨"invalid report-file path " ++
        quoteGo (env0.expand rawTildeReportFile.reportFile).1 ++ ": " ++
        "$HOME is not defined", false⟩ ∧
    (action env0 rawTildeReportFile.store "img-a" "img-b").1.filter Event.isCallGet = [] ∧
    (action env0 rawTildeReportFile.store "img-a" "img-b").1.filter Event.isCallDiff = [] :=
  (report_path_expansion_failure_aborts env0 rawTildeReportFile "img-a" "img-b"
    ["linux/amd64"] rfl rfl).1 ⟨"$HOME is not defined", false⟩ (by decide) rfl

/-- C6 counterexample: the abort message quotes the empty string returned
by the failed expansion, and the user-supplied path "~/out.json" does not
occur in it, against the claim that the error names the path as supplied
by the user. -/
theorem report_path_error_omits_user_path :
    (action env0 rawTildeReportFile.store "img-a" "img-b").2 =
      .returnedError ⟨"invalid report-file path \"\": $HOME is not defined", false⟩ ∧
    strContains "invalid report-file path \"\": $HOME is not defined" "~/out.json" = false ∧
    (action env0 rawTildeReportFile.store "img-a" "img-b").1.filter Event.isCallGet = [] := by
  exact ⟨by decide, by decide, by decide⟩
